import Mathlib

/-!
Shallow embedding of `aioasuswrt` (src/aioasuswrt/asuswrt.py and
src/aioasuswrt/connection.py) and proofs about it.

Parsing happens in Python with `regex.search(line)` followed by
`match.groupdict()`; a parsed record is therefore a dict mapping every
named group of the pattern to an optional string (the value is `None`
exactly when the optional group did not participate in the match).  We
embed the per-record loops of `asuswrt.py` over such records, and embed
each regex's capture-group character classes as executable predicates.
-/

namespace Aioasuswrt

/-! ### Characters, `str.upper`, and the MAC-token character classes -/

/-- The character class `[0-9a-f]` used by the `mac` groups of
`_LEASES_REGEX`, `_IP_NEIGH_REGEX` and `_ARP_REGEX`: the two ranges of
the class. -/
def isHexLower (c : Char) : Bool :=
  ('0' ≤ c && c ≤ '9') || ('a' ≤ c && c ≤ 'f')

/-- The character class `[0-9A-F]` used by the `mac` group of
`_WL_REGEX`. -/
def isHexUpper (c : Char) : Bool :=
  ('0' ≤ c && c ≤ '9') || ('A' ≤ c && c ≤ 'F')

/-- The separator class `[:-]` of every `mac` group. -/
def isMacSep (c : Char) : Bool := c = ':' || c = '-'

/-- Python's `str.upper()` restricted to one character; agrees with
`str.upper` on ASCII, which is all the parsing patterns can deliver. -/
def pyUpperChar (c : Char) : Char := c.toUpper

/-- Python's `str.upper()` on ASCII strings. -/
def pyUpper (s : String) : String := ⟨s.data.map pyUpperChar⟩

/-- `macChars hex sep n cs` holds when `cs` spells `n + 1` pairs of `hex`
characters joined by `n` single `sep` characters: for `n = 5` this is the
language of the mac group `((hh[:-]){5}(hh))` with `h` drawn from `hex`. -/
def macChars (hex sep : Char → Bool) : Nat → List Char → Bool
  | 0, [a, b] => hex a && hex b
  | n + 1, a :: b :: s :: rest => hex a && hex b && sep s && macChars hex sep n rest
  | _, _ => false

/-- A string accepted by the lowercase-hex mac group (`_ARP_REGEX`,
`_IP_NEIGH_REGEX`, `_LEASES_REGEX`): six lowercase-hex pairs joined by
`:` or `-`. -/
def isLowerMacTok (s : String) : Bool := macChars isHexLower isMacSep 5 s.data

/-- A string accepted by the uppercase-hex mac group of `_WL_REGEX`. -/
def isUpperMacTok (s : String) : Bool := macChars isHexUpper isMacSep 5 s.data

/-- Uppercase-hex pairs joined by `:` or `-`: the shape every table key
actually has after `.upper()`. -/
def isUpperAnySepMac (s : String) : Bool := macChars isHexUpper isMacSep 5 s.data

/-- Canonical MAC shape claimed by the spec: uppercase hex pairs separated
by colons only. -/
def isCanonicalMac (s : String) : Bool :=
  macChars isHexUpper (fun c => c = ':') 5 s.data

/-! ### The device table

`Device = namedtuple('Device', ['mac', 'ip', 'name'])`; the tables built
in `asuswrt.py` are Python dicts from MAC strings to `Device`.  A dict is
embedded as an association list with unique keys: assignment to an
existing key overwrites in place, assignment to a fresh key appends. -/

structure Device where
  mac : String
  ip : Option String
  name : Option String
  deriving Repr, DecidableEq

abbrev DeviceMap := List (String × Device)

/-- `devices[k] = v` on a Python dict. -/
def dinsert (m : DeviceMap) (k : String) (v : Device) : DeviceMap :=
  if (m.lookup k).isSome then
    m.map (fun p => if p.1 = k then (k, v) else p)
  else
    m ++ [(k, v)]

/-- `other` applied over `m` by `m.update(other)`: each entry of `other`
assigned in order. -/
def dupdate (m other : DeviceMap) : DeviceMap :=
  other.foldl (fun acc p => dinsert acc p.1 p.2) m

/-- The key list of a table. -/
def dkeys (m : DeviceMap) : List String := m.map Prod.fst

/-! ### Parsed records

One structure per pattern, with one field per named capture group.
Groups the pattern cannot fail to capture (they are not under a `?`)
are plain `String`; truly optional groups, and groups whose `None` value
the code inspects, are `Option String`. -/

/-- A `groupdict()` of `_WL_REGEX`: only the (mandatory) `mac` group. -/
structure WlRecord where
  mac : String
  deriving Repr, DecidableEq

/-- A `groupdict()` of `_ARP_REGEX`.  `ip` and `mac` are both mandatory
groups; `mac` is kept optional because `async_get_arp` checks
`device['mac'] is not None` before using it. -/
structure ArpRecord where
  ip : String
  mac : Option String
  deriving Repr, DecidableEq

/-- A `groupdict()` of `_IP_NEIGH_REGEX`.  The `mac` group is optional in
the pattern; `ip` and `status` are mandatory, but they are kept as the
optional values the dict stores because `async_get_neigh` inspects both
for `None`. -/
structure NeighRecord where
  ip : Option String
  mac : Option String
  status : Option String
  deriving Repr, DecidableEq

/-- A `groupdict()` of `_LEASES_REGEX`: `mac`, `ip`, `host`, all
mandatory groups. -/
structure LeaseRecord where
  mac : String
  ip : String
  host : String
  deriving Repr, DecidableEq

/-! ### The four per-source builders (`asuswrt.py` lines 92–148)

Each embeds the loop over the `_parse_lines` result; an empty line list
yields the empty `result`, so the early `return {}` coincides with the
fold over `[]`. -/

/-- `async_get_wl`, lines 92–101. -/
def async_get_wl (records : List WlRecord) : DeviceMap :=
  records.foldl
    (fun devices r =>
      let mac := pyUpper r.mac
      dinsert devices mac ⟨mac, none, none⟩)
    []

/-- `async_get_arp`, lines 138–148. -/
def async_get_arp (records : List ArpRecord) : DeviceMap :=
  records.foldl
    (fun devices r =>
      match r.mac with
      | none => devices
      | some m =>
        let mac := pyUpper m
        dinsert devices mac ⟨mac, some r.ip, none⟩)
    []

/-- `async_get_neigh`, lines 121–136.  Note `device.get('ip', old_ip)`:
`groupdict()` always contains the key `'ip'`, and Python's `dict.get`
returns the stored value whenever the key is present — even when that
value is `None` — so the `old_ip` default is never consulted and the
stored IP is exactly the record's `ip` value. -/
def async_get_neigh (records : List NeighRecord) (cur_devices : DeviceMap) :
    DeviceMap :=
  records.foldl
    (fun devices r =>
      match r.status with
      | none => devices
      | some st =>
        if pyUpper st ≠ "REACHABLE" then devices
        else
          match r.mac with
          | none => devices
          | some m =>
            let mac := pyUpper m
            let _old_ip : Option String :=
              match cur_devices.lookup mac with
              | some d => d.ip
              | none => none
            dinsert devices mac ⟨mac, r.ip, none⟩)
    []

/-- `async_get_leases`, lines 103–119 (the `duid ` line pre-filter acts
on raw lines, before records exist). -/
def async_get_leases (records : List LeaseRecord) (cur_devices : DeviceMap) :
    DeviceMap :=
  records.foldl
    (fun devices r =>
      let host := if r.host = "*" then "" else r.host
      let mac := pyUpper r.mac
      if (cur_devices.lookup mac).isSome then
        dinsert devices mac ⟨mac, some r.ip, some host⟩
      else devices)
    []

/-- The table after steps 1–3 of `async_get_connected_devices`
(wireless, ARP, IP neighbor), lines 156–159. -/
def devicesAfterNeigh (wl : List WlRecord) (arp : List ArpRecord)
    (neigh : List NeighRecord) : DeviceMap :=
  let devices : DeviceMap := []
  let devices := dupdate devices (async_get_wl wl)
  let devices := dupdate devices (async_get_arp arp)
  dupdate devices (async_get_neigh neigh devices)

/-- `async_get_connected_devices`, lines 150–167. -/
def async_get_connected_devices (wl : List WlRecord) (arp : List ArpRecord)
    (neigh : List NeighRecord) (leases : List LeaseRecord)
    (mode : String) (require_ip : Bool) : DeviceMap :=
  let devices := devicesAfterNeigh wl arp neigh
  let devices :=
    if ¬ (mode = "ap") then dupdate devices (async_get_leases leases devices)
    else devices
  devices.filter (fun p => !require_ip || p.2.ip.isSome)

/-! ### Interface-counter extraction (`_IFCONFIG_REGEX.findall`)

`_IFCONFIG_REGEX` is `(?P<data>[\d]{4,})`; `findall` on a line returns,
left to right, every maximal run of consecutive digits whose length is at
least four (the quantifier is greedy, so a run is always consumed whole
and a shorter remainder is never re-matched). -/

/-- Maximal digit runs of a character list, in order, empties dropped. -/
def digitRuns : List Char → List (List Char)
  | [] => []
  | c :: cs =>
    if c.isDigit then
      match digitRuns cs with
      | [] => [[c]]
      | r :: rs =>
        match cs with
        | c' :: _ => if c'.isDigit then (c :: r) :: rs else [c] :: r :: rs
        | [] => [[c]]
    else digitRuns cs

/-- `findall` for `[\d]{4,}` on one line: the maximal digit runs of
length at least 4, as strings. -/
def findNums (line : String) : List String :=
  ((digitRuns line.data).filter (fun r => 4 ≤ r.length)).map List.asString

/-- Python `int` on a digit string. -/
def digitsToNat (s : String) : Nat :=
  s.data.foldl (fun acc c => 10 * acc + (c.toNat - '0'.toNat)) 0

/-! ### Counter cache and rate estimator (`asuswrt.py` lines 169–216)

Timestamps are rationals (seconds); `datetime` subtraction followed by
`total_seconds()` becomes rational subtraction.  The mutable fields of
`AsusWrt` that these methods touch are gathered in `WrtState`.
`_transfer_rates_cache` and `_trans_cache_timer` are `None` together and
are always assigned together (lines 181–182), so they are embedded as one
optional pair.  A Python run-time error (indexing a too-short list,
subtracting from `None`, dividing by zero) is embedded as `Option.none`. -/

structure WrtState where
  /-- `_transfer_rates_cache` and `_trans_cache_timer`. -/
  cache : Option (List Nat × ℚ)
  /-- `_rx_latest`. -/
  rx_latest : Option Int
  /-- `_tx_latest`. -/
  tx_latest : Option Int
  /-- `_latest_transfer_check`. -/
  latest_transfer_check : Option ℚ
  /-- `_cache_time` (constructor default 5). -/
  cache_time : ℚ
  deriving Repr, DecidableEq

/-- `async_get_packets_total`, lines 169–183.  `lines` is the output of
`async_run_command(_IFCONFIG_CMD)`; `now` is `datetime.utcnow()`.
Returns the value and the successor state, or `none` on a run-time error
(`data[0]` with no lines).  A `datetime` object is always truthy, so the
cache test is: caching requested, a timer exists, and strictly fewer than
`_cache_time` seconds have elapsed. -/
def async_get_packets_total (st : WrtState) (now : ℚ) (use_cache : Bool)
    (lines : List String) : Option (List Nat × WrtState) :=
  match st.cache with
  | some (cached, timer) =>
    if use_cache ∧ st.cache_time > now - timer then some (cached, st)
    else
      match lines.head? with
      | none => none
      | some line0 =>
        let ret := (findNums line0).map digitsToNat
        some (ret, { st with cache := some (ret, now) })
  | none =>
    match lines.head? with
    | none => none
    | some line0 =>
      let ret := (findNums line0).map digitsToNat
      some (ret, { st with cache := some (ret, now) })

/-- `async_get_rx`, lines 185–188: `data[0]` of the totals. -/
def async_get_rx (st : WrtState) (now : ℚ) (use_cache : Bool)
    (lines : List String) : Option (Nat × WrtState) :=
  match async_get_packets_total st now use_cache lines with
  | none => none
  | some (data, st') =>
    match data.head? with
    | none => none
    | some rx => some (rx, st')

/-- `async_get_tx`, lines 190–193: `data[1]` of the totals. -/
def async_get_tx (st : WrtState) (now : ℚ) (use_cache : Bool)
    (lines : List String) : Option (Nat × WrtState) :=
  match async_get_packets_total st now use_cache lines with
  | none => none
  | some (data, st') =>
    match data.get? 1 with
    | none => none
    | some tx => some (tx, st')

/-- Lines 199–216 of `async_get_current_transfer_rates`, once `data` (the
totals list) is in hand.  The first call (no previous snapshot) stores
the current totals and returns `none` for the rate; a subsequent call
returns `math.ceil(delta / elapsed)` per direction when the delta is
positive and `0` otherwise.  Python evaluates the division only under
`rx > 0` (resp. `tx > 0`), and float division by zero raises, hence the
explicit error case; subtracting `now - None` would also raise, hence
the `latest_transfer_check` bind in the second branch. -/
def transferRatesOnData (st : WrtState) (now : ℚ) (data : List Nat) :
    Option (WrtState × Option (Int × Int)) :=
  match st.rx_latest, st.tx_latest with
  | some rx_latest, some tx_latest =>
    match data.head?, data.get? 1, st.latest_transfer_check with
    | some d0, some d1, some prev =>
      let time_diff : ℚ := now - prev
      let rx : Int := (d0 : Int) - rx_latest
      let tx : Int := (d1 : Int) - tx_latest
      let st' := { st with
        rx_latest := some (d0 : Int), tx_latest := some (d1 : Int),
        latest_transfer_check := some now }
      if time_diff = 0 ∧ (rx > 0 ∨ tx > 0) then none
      else
        some (st',
          some (if rx > 0 then ⌈(rx : ℚ) / time_diff⌉ else 0,
                if tx > 0 then ⌈(tx : ℚ) / time_diff⌉ else 0))
    | _, _, _ => none
  | _, _ =>
    match data.head?, data.get? 1 with
    | some d0, some d1 =>
      some ({ st with
        rx_latest := some (d0 : Int), tx_latest := some (d1 : Int),
        latest_transfer_check := some now }, none)
    | _, _ => none

/-- `async_get_current_transfer_rates`, lines 195–216: fetch the totals
(through the cache), then diff against the latest snapshot. -/
def async_get_current_transfer_rates (st : WrtState) (now : ℚ)
    (use_cache : Bool) (lines : List String) :
    Option (WrtState × Option (Int × Int)) :=
  match async_get_packets_total st now use_cache lines with
  | none => none
  | some (data, st') => transferRatesOnData st' now data

/-- The per-direction rate exactly as the spec words it: the ceiling of
`delta / elapsed`, clamped to zero when the delta is negative.  Modelled
from the spec for comparison with the code's conditional. -/
def specRate (delta : Int) (elapsed : ℚ) : Int :=
  if delta < 0 then 0 else ⌈(delta : ℚ) / elapsed⌉

/-! ### `SshConnection.async_run_command` (`connection.py` lines 23–41)

The environment is an oracle giving the outcome of
`await self._client.run(command)` for each value of the `retry` flag.
The crucial point of the embedding: in the `except` branch for
`retry=False` the code executes
`return self.async_run_command(command, retry=True)` — it returns the
*coroutine object* of the recursive call without `await`ing it, so the
retried command is never executed and the awaiting caller receives the
coroutine object itself rather than a list of lines.  `AwaitedValue`
distinguishes these two kinds of result.  The second component counts
the `async_init_session` calls performed (awaited) inside the `except`
handler. -/

/-- Outcome of one `self._client.run(command)` invocation: a result with
the given `stdout`, or `asyncssh.misc.ChannelOpenError`. -/
inductive RunAttempt where
  | ok (stdout : String)
  | channelOpenError
  deriving Repr, DecidableEq

/-- What `await connection.async_run_command(command)` hands back. -/
inductive AwaitedValue where
  | lines (l : List String)
  /-- The un-awaited coroutine object
  `self.async_run_command(command, retry=True)`. -/
  | unawaitedCoroutine
  deriving Repr, DecidableEq

/-- `SshConnection.async_run_command`, indexed by the `retry` flag
(`False` at every external call site).  The `retry=True` body is embedded
as written even though no execution ever awaits it. -/
def ssh_async_run_command (attempt : Bool → RunAttempt) :
    Bool → AwaitedValue × Nat
  | true =>
    match attempt true with
    | .ok stdout => (.lines (stdout.splitOn "\n"), 0)
    | .channelOpenError => (.lines [], 0)
  | false =>
    match attempt false with
    | .ok stdout => (.lines (stdout.splitOn "\n"), 0)
    | .channelOpenError => (.unawaitedCoroutine, 1)

/-! ### Helper lemmas: characters and MAC tokens -/

lemma hexLower_pyUpperChar {c : Char} (h : isHexLower c = true) :
    isHexUpper (pyUpperChar c) = true := by
  simp only [isHexLower, Bool.or_eq_true, Bool.and_eq_true,
    decide_eq_true_eq] at h
  unfold pyUpperChar Char.toUpper
  dsimp only
  rcases h with ⟨h1, h2⟩ | ⟨h1, h2⟩
  · have n1 : 48 ≤ c.toNat := h1
    have n2 : c.toNat ≤ 57 := h2
    rw [if_neg (by omega)]
    simp only [isHexUpper, Bool.or_eq_true, Bool.and_eq_true,
      decide_eq_true_eq]
    exact Or.inl ⟨h1, h2⟩
  · have n1 : 97 ≤ c.toNat := h1
    have n2 : c.toNat ≤ 102 := h2
    rw [if_pos (by exact ⟨by omega, by omega⟩)]
    obtain ⟨n, hn⟩ : ∃ n, c.toNat = n := ⟨_, rfl⟩
    rw [hn] at n1 n2 ⊢
    interval_cases n <;> decide

lemma hexUpper_pyUpperChar {c : Char} (h : isHexUpper c = true) :
    isHexUpper (pyUpperChar c) = true := by
  simp only [isHexUpper, Bool.or_eq_true, Bool.and_eq_true,
    decide_eq_true_eq] at h
  unfold pyUpperChar Char.toUpper
  dsimp only
  rcases h with ⟨h1, h2⟩ | ⟨h1, h2⟩
  · have n1 : 48 ≤ c.toNat := h1
    have n2 : c.toNat ≤ 57 := h2
    rw [if_neg (by omega)]
    simp only [isHexUpper, Bool.or_eq_true, Bool.and_eq_true,
      decide_eq_true_eq]
    exact Or.inl ⟨h1, h2⟩
  · have n1 : 65 ≤ c.toNat := h1
    have n2 : c.toNat ≤ 70 := h2
    rw [if_neg (by omega)]
    simp only [isHexUpper, Bool.or_eq_true, Bool.and_eq_true,
      decide_eq_true_eq]
    exact Or.inr ⟨h1, h2⟩

lemma macSep_pyUpperChar {c : Char} (h : isMacSep c = true) :
    isMacSep (pyUpperChar c) = true := by
  simp only [isMacSep, Bool.or_eq_true, decide_eq_true_eq] at h
  rcases h with rfl | rfl <;> decide

/-- Mapping a character function over a mac token preserves the shape,
provided the function carries the hex class into `hex'` and respects the
separator class. -/
lemma macChars_map {hex hex' sep sep' : Char → Bool} {f : Char → Char}
    (hh : ∀ c, hex c = true → hex' (f c) = true)
    (hs : ∀ c, sep c = true → sep' (f c) = true) :
    ∀ n cs, macChars hex sep n cs = true →
      macChars hex' sep' n (cs.map f) = true := by
  intro n
  induction n with
  | zero =>
    intro cs h
    match cs with
    | [a, b] =>
      simp only [macChars, Bool.and_eq_true] at h ⊢
      exact ⟨hh a h.1, hh b h.2⟩
  | succ n ih =>
    intro cs h
    match cs with
    | a :: b :: s :: rest =>
      simp only [macChars, Bool.and_eq_true, List.map_cons] at h ⊢
      exact ⟨⟨⟨hh a h.1.1.1, hh b h.1.1.2⟩, hs s h.1.2⟩, ih rest h.2⟩

lemma isUpperAnySepMac_pyUpper_of_lower {s : String}
    (h : isLowerMacTok s = true) : isUpperAnySepMac (pyUpper s) = true :=
  macChars_map (fun _ => hexLower_pyUpperChar) (fun _ => macSep_pyUpperChar)
    5 s.data h

lemma isUpperAnySepMac_pyUpper_of_upper {s : String}
    (h : isUpperMacTok s = true) : isUpperAnySepMac (pyUpper s) = true :=
  macChars_map (fun _ => hexUpper_pyUpperChar) (fun _ => macSep_pyUpperChar)
    5 s.data h

/-! ### Helper lemmas: the dict embedding -/

lemma lookup_isSome_iff_mem_dkeys (m : DeviceMap) (k : String) :
    (m.lookup k).isSome = true ↔ k ∈ dkeys m := by
  induction m with
  | nil => simp [dkeys, List.lookup]
  | cons p t ih =>
    rcases p with ⟨a, v⟩
    by_cases hk : k = a
    · subst hk; simp [dkeys, List.lookup]
    · have : (k == a) = false := beq_eq_false_iff_ne.mpr hk
      simp [dkeys, List.lookup, this, ih, hk]

lemma dkeys_dinsert (m : DeviceMap) (k : String) (v : Device) :
    dkeys (dinsert m k v) = if k ∈ dkeys m then dkeys m else dkeys m ++ [k] := by
  unfold dinsert
  by_cases h : (m.lookup k).isSome = true
  · rw [if_pos h, if_pos ((lookup_isSome_iff_mem_dkeys m k).mp h)]
    unfold dkeys
    rw [List.map_map]
    apply List.map_congr_left
    intro p _
    by_cases hp : p.1 = k <;> simp [hp]
  · rw [if_neg h, if_neg (fun hm => h ((lookup_isSome_iff_mem_dkeys m k).mpr hm))]
    simp [dkeys]

lemma mem_dkeys_dinsert {a : String} (m : DeviceMap) (k : String) (v : Device) :
    a ∈ dkeys (dinsert m k v) ↔ a = k ∨ a ∈ dkeys m := by
  rw [dkeys_dinsert]
  by_cases h : k ∈ dkeys m
  · rw [if_pos h]
    constructor
    · exact Or.inr
    · rintro (rfl | hm)
      · exact h
      · exact hm
  · rw [if_neg h]
    simp [or_comm]

lemma mem_dkeys_dupdate {a : String} :
    ∀ (other m : DeviceMap),
      a ∈ dkeys (dupdate m other) ↔ a ∈ dkeys m ∨ a ∈ dkeys other := by
  intro other
  induction other with
  | nil => simp [dupdate, dkeys]
  | cons p t ih =>
    intro m
    show a ∈ dkeys (dupdate (dinsert m p.1 p.2) t) ↔ _
    rw [ih, mem_dkeys_dinsert]
    simp [dkeys]
    tauto

lemma mem_dkeys_filter {a : String} {q : String × Device → Bool}
    {m : DeviceMap} (h : a ∈ dkeys (m.filter q)) : a ∈ dkeys m := by
  rcases List.mem_map.mp h with ⟨p, hp, rfl⟩
  exact List.mem_map.mpr ⟨p, (List.mem_filter.mp hp).1, rfl⟩

/-- Folding a step function that preserves a table predicate preserves it;
the step may use membership of the element in the original list. -/
lemma foldl_preserve {α : Type} (P : DeviceMap → Prop)
    (f : DeviceMap → α → DeviceMap) :
    ∀ (l : List α) (m : DeviceMap), P m →
      (∀ acc x, x ∈ l → P acc → P (f acc x)) → P (l.foldl f m) := by
  intro l
  induction l with
  | nil => intro m hm _; exact hm
  | cons x t ih =>
    intro m hm hstep
    exact ih (f m x) (hstep m x (List.mem_cons_self x t) hm)
      (fun acc y hy => hstep acc y (List.mem_cons_of_mem x hy))

lemma mem_dinsert {p : String × Device} {m : DeviceMap} {k : String}
    {v : Device} (h : p ∈ dinsert m k v) : p = (k, v) ∨ p ∈ m := by
  unfold dinsert at h
  by_cases hs : (m.lookup k).isSome = true
  · rw [if_pos hs] at h
    rcases List.mem_map.mp h with ⟨q, hq, rfl⟩
    by_cases hk : q.1 = k
    · left; simp [hk]
    · right; simpa [hk] using hq
  · rw [if_neg hs] at h
    rcases List.mem_append.mp h with hm | hone
    · exact Or.inr hm
    · exact Or.inl (List.mem_singleton.mp hone)

/-! ### Key characterizations of the four builders -/

lemma dkeys_wl_spec (recs : List WlRecord) :
    ∀ k ∈ dkeys (async_get_wl recs), ∃ r ∈ recs, k = pyUpper r.mac := by
  unfold async_get_wl
  apply foldl_preserve (fun m => ∀ k ∈ dkeys m, ∃ r ∈ recs, k = pyUpper r.mac)
  · simp [dkeys]
  · intro acc r hr hacc k hk
    rcases (mem_dkeys_dinsert acc _ _).mp hk with rfl | hmem
    · exact ⟨r, hr, rfl⟩
    · exact hacc k hmem

lemma dkeys_arp_spec (recs : List ArpRecord) :
    ∀ k ∈ dkeys (async_get_arp recs),
      ∃ r ∈ recs, ∃ m, r.mac = some m ∧ k = pyUpper m := by
  unfold async_get_arp
  apply foldl_preserve
    (fun t => ∀ k ∈ dkeys t, ∃ r ∈ recs, ∃ m, r.mac = some m ∧ k = pyUpper m)
  · simp [dkeys]
  · intro acc r hr hacc k hk
    rcases hmac : r.mac with _ | m
    · rw [hmac] at hk; exact hacc k hk
    · rw [hmac] at hk
      rcases (mem_dkeys_dinsert acc _ _).mp hk with rfl | hmem
      · exact ⟨r, hr, m, hmac, rfl⟩
      · exact hacc k hmem

lemma dkeys_neigh_spec (recs : List NeighRecord) (cur : DeviceMap) :
    ∀ k ∈ dkeys (async_get_neigh recs cur),
      ∃ r ∈ recs, (∃ s, r.status = some s ∧ pyUpper s = "REACHABLE") ∧
        ∃ m, r.mac = some m ∧ k = pyUpper m := by
  unfold async_get_neigh
  apply foldl_preserve
    (fun t => ∀ k ∈ dkeys t,
      ∃ r ∈ recs, (∃ s, r.status = some s ∧ pyUpper s = "REACHABLE") ∧
        ∃ m, r.mac = some m ∧ k = pyUpper m)
  · simp [dkeys]
  · intro acc r hr hacc k hk
    split at hk
    · exact hacc k hk
    · rename_i s hst
      split at hk
      · exact hacc k hk
      · rename_i hre
        split at hk
        · exact hacc k hk
        · rename_i m hmac
          rcases (mem_dkeys_dinsert acc _ _).mp hk with rfl | hmem
          · exact ⟨r, hr, ⟨s, hst, not_not.mp hre⟩, m, hmac, rfl⟩
          · exact hacc k hmem

lemma dkeys_leases_subset (recs : List LeaseRecord) (cur : DeviceMap) :
    ∀ k ∈ dkeys (async_get_leases recs cur), k ∈ dkeys cur := by
  unfold async_get_leases
  apply foldl_preserve (fun t => ∀ k ∈ dkeys t, k ∈ dkeys cur)
  · simp [dkeys]
  · intro acc r _ hacc k hk
    by_cases hcur : (cur.lookup (pyUpper r.mac)).isSome = true
    · rw [if_pos hcur] at hk
      rcases (mem_dkeys_dinsert acc _ _).mp hk with rfl | hmem
      · exact (lookup_isSome_iff_mem_dkeys cur _).mp hcur
      · exact hacc k hmem
    · rw [if_neg hcur] at hk; exact hacc k hk

lemma dkeys_leases_spec (recs : List LeaseRecord) (cur : DeviceMap) :
    ∀ k ∈ dkeys (async_get_leases recs cur), ∃ r ∈ recs, k = pyUpper r.mac := by
  unfold async_get_leases
  apply foldl_preserve (fun t => ∀ k ∈ dkeys t, ∃ r ∈ recs, k = pyUpper r.mac)
  · simp [dkeys]
  · intro acc r hr hacc k hk
    by_cases hcur : (cur.lookup (pyUpper r.mac)).isSome = true
    · rw [if_pos hcur] at hk
      rcases (mem_dkeys_dinsert acc _ _).mp hk with rfl | hmem
      · exact ⟨r, hr, rfl⟩
      · exact hacc k hmem
    · rw [if_neg hcur] at hk; exact hacc k hk

/-! ### Every entry's key equals its `mac` field -/

lemma macField_dinsert {m : DeviceMap} {k : String} {v : Device}
    (hm : ∀ p ∈ m, (p : String × Device).2.mac = p.1) (hv : v.mac = k) :
    ∀ p ∈ dinsert m k v, p.2.mac = p.1 := by
  intro p hp
  rcases mem_dinsert hp with rfl | hmem
  · exact hv
  · exact hm p hmem

lemma macField_wl (recs : List WlRecord) :
    ∀ p ∈ async_get_wl recs, p.2.mac = p.1 := by
  unfold async_get_wl
  apply foldl_preserve (fun t => ∀ p ∈ t, (p : String × Device).2.mac = p.1)
  · simp
  · intro acc r _ hacc
    exact macField_dinsert hacc rfl

lemma macField_arp (recs : List ArpRecord) :
    ∀ p ∈ async_get_arp recs, p.2.mac = p.1 := by
  unfold async_get_arp
  apply foldl_preserve (fun t => ∀ p ∈ t, (p : String × Device).2.mac = p.1)
  · simp
  · intro acc r _ hacc p hp
    split at hp
    · exact hacc p hp
    · simp only [] at hp
      refine macField_dinsert hacc ?_ p hp
      rfl

lemma macField_neigh (recs : List NeighRecord) (cur : DeviceMap) :
    ∀ p ∈ async_get_neigh recs cur, p.2.mac = p.1 := by
  unfold async_get_neigh
  apply foldl_preserve (fun t => ∀ p ∈ t, (p : String × Device).2.mac = p.1)
  · simp
  · intro acc r _ hacc p hp
    split at hp
    · exact hacc p hp
    · split at hp
      · exact hacc p hp
      · split at hp
        · exact hacc p hp
        · simp only [] at hp
          refine macField_dinsert hacc ?_ p hp
          rfl

lemma macField_leases (recs : List LeaseRecord) (cur : DeviceMap) :
    ∀ p ∈ async_get_leases recs cur, p.2.mac = p.1 := by
  unfold async_get_leases
  apply foldl_preserve (fun t => ∀ p ∈ t, (p : String × Device).2.mac = p.1)
  · simp
  · intro acc r _ hacc p hp
    simp only [] at hp
    split at hp
    · refine macField_dinsert hacc ?_ p hp
      rfl
    · exact hacc p hp

lemma macField_dupdate {m other : DeviceMap}
    (hm : ∀ p ∈ m, (p : String × Device).2.mac = p.1)
    (ho : ∀ p ∈ other, (p : String × Device).2.mac = p.1) :
    ∀ p ∈ dupdate m other, p.2.mac = p.1 := by
  unfold dupdate
  apply foldl_preserve (fun t => ∀ p ∈ t, (p : String × Device).2.mac = p.1)
    _ other m hm
  intro acc q hq hacc
  exact macField_dinsert hacc (ho q hq)

lemma macField_connected (wl : List WlRecord) (arp : List ArpRecord)
    (neigh : List NeighRecord) (leases : List LeaseRecord)
    (mode : String) (require_ip : Bool) :
    ∀ p ∈ async_get_connected_devices wl arp neigh leases mode require_ip,
      p.2.mac = p.1 := by
  have hbase : ∀ p ∈ devicesAfterNeigh wl arp neigh,
      (p : String × Device).2.mac = p.1 := by
    unfold devicesAfterNeigh
    exact macField_dupdate
      (macField_dupdate (macField_dupdate (by simp) (macField_wl wl))
        (macField_arp arp))
      (macField_neigh neigh _)
  unfold async_get_connected_devices
  intro p hp
  have hp' := List.mem_filter.mp hp
  split at hp'
  · exact macField_dupdate hbase (macField_leases leases _) p hp'.1
  · exact hbase p hp'.1

/-! ### Keys of the assembled table -/

lemma mem_dkeys_afterNeigh {wl : List WlRecord} {arp : List ArpRecord}
    {neigh : List NeighRecord} {k : String}
    (h : k ∈ dkeys (devicesAfterNeigh wl arp neigh)) :
    k ∈ dkeys (async_get_wl wl) ∨ k ∈ dkeys (async_get_arp arp) ∨
      k ∈ dkeys (async_get_neigh neigh
        (dupdate (dupdate [] (async_get_wl wl)) (async_get_arp arp))) := by
  unfold devicesAfterNeigh at h
  rcases (mem_dkeys_dupdate _ _).mp h with h2 | h3
  · rcases (mem_dkeys_dupdate _ _).mp h2 with h4 | h5
    · rcases (mem_dkeys_dupdate _ _).mp h4 with h6 | h7
      · simp [dkeys] at h6
      · exact Or.inl h7
    · exact Or.inr (Or.inl h5)
  · exact Or.inr (Or.inr h3)

lemma mem_dkeys_connected {wl : List WlRecord} {arp : List ArpRecord}
    {neigh : List NeighRecord} {leases : List LeaseRecord}
    {mode : String} {require_ip : Bool} {k : String}
    (h : k ∈ dkeys (async_get_connected_devices wl arp neigh leases mode
      require_ip)) :
    k ∈ dkeys (devicesAfterNeigh wl arp neigh) := by
  unfold async_get_connected_devices at h
  split at h
  · have h' := mem_dkeys_filter h
    rcases (mem_dkeys_dupdate _ _).mp h' with hb | hl
    · exact hb
    · exact dkeys_leases_subset leases _ k hl
  · exact mem_dkeys_filter h

/-! ### Helper lemmas: rates, tokens, fresh fetches -/

/-- The code's `ceil if positive else 0` is the spec's
`ceil clamped to zero on negative delta`, for a positive elapsed time. -/
lemma rate_eq_specRate {rx : Int} {dt : ℚ} :
    (if rx > 0 then ⌈(rx : ℚ) / dt⌉ else 0) = specRate rx dt := by
  unfold specRate
  rcases lt_trichotomy rx 0 with h | rfl | h
  · rw [if_neg (by omega), if_pos h]
  · rw [if_neg (by omega), if_neg (by omega)]
    simp
  · rw [if_pos h, if_neg (by omega)]

lemma digitRuns_all_digits :
    ∀ cs : List Char, ∀ r ∈ digitRuns cs, r.all Char.isDigit = true := by
  intro cs
  induction cs with
  | nil => simp [digitRuns]
  | cons c cs ih =>
    intro r hr
    unfold digitRuns at hr
    split at hr
    · rename_i hc
      split at hr
      · rename_i hnil
        rcases List.mem_singleton.mp hr with rfl
        simp [hc]
      · rename_i r' rs' hcons
        split at hr
        · rename_i c' cs' hcs
          split at hr
          · rename_i hc'
            rcases List.mem_cons.mp hr with rfl | htail
            · have hr' := ih r' (hcons ▸ List.mem_cons_self r' rs')
              simp only [List.all_cons, Bool.and_eq_true] at hr' ⊢
              exact ⟨hc, hr'⟩
            · exact ih r (hcons ▸ List.mem_cons_of_mem r' htail)
          · rcases List.mem_cons.mp hr with rfl | htail
            · simp [hc]
            · exact ih r (hcons ▸ htail)
        · rcases List.mem_singleton.mp hr with rfl
          simp [hc]
    · exact ih r hr

/-- When caching is off or no snapshot exists, `async_get_packets_total`
issues the command and stores the extracted tokens with the new
timestamp. -/
lemma packets_total_fresh {st : WrtState} {now : ℚ} {use_cache : Bool}
    {lines : List String} {line0 : String}
    (h : use_cache = false ∨ st.cache = none)
    (h0 : lines.head? = some line0) :
    async_get_packets_total st now use_cache lines =
      some ((findNums line0).map digitsToNat,
        { st with cache := some ((findNums line0).map digitsToNat, now) }) := by
  unfold async_get_packets_total
  rcases hc : st.cache with _ | ⟨c, tc⟩
  · dsimp only
    rw [h0]
  · dsimp only
    rcases h with rfl | hnone
    · rw [if_neg (by simp), h0]
    · rw [hc] at hnone
      exact absurd hnone (by simp)


/-- A subsequent rate call (both snapshots present), with the division
guard known not to fire, evaluated. -/
lemma transferRatesOnData_subsequent (cache : Option (List Nat × ℚ))
    (r0 t0 : Int) (tc ct now : ℚ) (data : List Nat) (d0 d1 : Nat)
    (h0 : data.head? = some d0) (h1 : data.get? 1 = some d1)
    (hguard : ¬ (now - tc = 0 ∧
      ((d0 : Int) - r0 > 0 ∨ (d1 : Int) - t0 > 0))) :
    transferRatesOnData ⟨cache, some r0, some t0, some tc, ct⟩ now data =
      some (⟨cache, some (d0 : Int), some (d1 : Int), some now, ct⟩,
        some (if (d0 : Int) - r0 > 0 then
                ⌈(((d0 : Int) - r0 : Int) : ℚ) / (now - tc)⌉ else 0,
              if (d1 : Int) - t0 > 0 then
                ⌈(((d1 : Int) - t0 : Int) : ℚ) / (now - tc)⌉ else 0)) := by
  unfold transferRatesOnData
  dsimp only
  rw [h0, h1]
  dsimp only
  rw [if_neg hguard]

/-- A subsequent rate call whose division guard fires raises
`ZeroDivisionError`: the embedded result is `none`. -/
lemma transferRatesOnData_guard_crash (cache : Option (List Nat × ℚ))
    (r0 t0 : Int) (tc ct now : ℚ) (data : List Nat) (d0 d1 : Nat)
    (h0 : data.head? = some d0) (h1 : data.get? 1 = some d1)
    (hguard : now - tc = 0 ∧ ((d0 : Int) - r0 > 0 ∨ (d1 : Int) - t0 > 0)) :
    transferRatesOnData ⟨cache, some r0, some t0, some tc, ct⟩ now data =
      none := by
  unfold transferRatesOnData
  dsimp only
  rw [h0, h1]
  dsimp only
  rw [if_pos hguard]

/-! ## Claim theorems -/

/-- C10: in every mapping returned by `async_get_connected_devices` and by
each of the four per-source getters, every key equals the `mac` field of
the `Device` record stored under it. -/
theorem table_keys_equal_mac_field :
    (∀ (recs : List WlRecord), ∀ p ∈ async_get_wl recs, p.2.mac = p.1) ∧
    (∀ (recs : List ArpRecord), ∀ p ∈ async_get_arp recs, p.2.mac = p.1) ∧
    (∀ (recs : List NeighRecord) (cur : DeviceMap),
      ∀ p ∈ async_get_neigh recs cur, p.2.mac = p.1) ∧
    (∀ (recs : List LeaseRecord) (cur : DeviceMap),
      ∀ p ∈ async_get_leases recs cur, p.2.mac = p.1) ∧
    (∀ (wl : List WlRecord) (arp : List ArpRecord) (neigh : List NeighRecord)
      (leases : List LeaseRecord) (mode : String) (require_ip : Bool),
      ∀ p ∈ async_get_connected_devices wl arp neigh leases mode require_ip,
        p.2.mac = p.1) :=
  ⟨macField_wl, macField_arp, macField_neigh, macField_leases,
    macField_connected⟩

/-- Witness for C10 at concrete inputs. -/
theorem table_keys_equal_mac_field_witness :
    (("AA:BB:CC:DD:EE:FF", (⟨"AA:BB:CC:DD:EE:FF", none, none⟩ : Device)) ∈
        async_get_wl [⟨"aa:bb:cc:dd:ee:ff"⟩]) ∧
    (Device.mk "AA:BB:CC:DD:EE:FF" none none).mac = "AA:BB:CC:DD:EE:FF" :=
  ⟨by decide,
   table_keys_equal_mac_field.1 [⟨"aa:bb:cc:dd:ee:ff"⟩]
     ("AA:BB:CC:DD:EE:FF", ⟨"AA:BB:CC:DD:EE:FF", none, none⟩) (by decide)⟩

/-- C2: a lease alone cannot create a device: the keys of the lease table
are keys of `cur_devices`, and every key of the final reconciled table was
already a key of the table built from the wireless, ARP and IP-neighbor
steps. -/
theorem leases_cannot_introduce_devices :
    (∀ (recs : List LeaseRecord) (cur : DeviceMap) (k : String),
      k ∈ dkeys (async_get_leases recs cur) → k ∈ dkeys cur) ∧
    (∀ (wl : List WlRecord) (arp : List ArpRecord) (neigh : List NeighRecord)
      (leases : List LeaseRecord) (mode : String) (require_ip : Bool)
      (k : String),
      k ∈ dkeys (async_get_connected_devices wl arp neigh leases mode
        require_ip) →
      k ∈ dkeys (devicesAfterNeigh wl arp neigh)) :=
  ⟨fun recs cur k hk => dkeys_leases_subset recs cur k hk,
   fun _ _ _ _ _ _ _ hk => mem_dkeys_connected hk⟩

/-- Witness for C2 at concrete inputs: a lease whose MAC is known and one
whose MAC is unknown. -/
theorem leases_cannot_introduce_devices_witness :
    "AA:BB:CC:DD:EE:FF" ∈
      dkeys [("AA:BB:CC:DD:EE:FF",
        (⟨"AA:BB:CC:DD:EE:FF", none, none⟩ : Device))] :=
  leases_cannot_introduce_devices.1
    [⟨"aa:bb:cc:dd:ee:ff", "10.0.0.3", "laptop"⟩,
     ⟨"11:22:33:44:55:66", "10.0.0.4", "ghost"⟩]
    [("AA:BB:CC:DD:EE:FF", ⟨"AA:BB:CC:DD:EE:FF", none, none⟩)]
    "AA:BB:CC:DD:EE:FF" (by decide)

/-- C7: only IP-neighbor records whose status upper-cases to exactly
`REACHABLE` contribute entries, and a MAC whose only sightings are
non-REACHABLE neighbor records never appears in the reconciled table. -/
theorem neigh_only_reachable_contributes :
    (∀ (recs : List NeighRecord) (cur : DeviceMap) (k : String),
      k ∈ dkeys (async_get_neigh recs cur) →
      ∃ r ∈ recs, (∃ s, r.status = some s ∧ pyUpper s = "REACHABLE") ∧
        ∃ m, r.mac = some m ∧ k = pyUpper m) ∧
    (∀ (wl : List WlRecord) (arp : List ArpRecord) (neigh : List NeighRecord)
      (leases : List LeaseRecord) (mode : String) (require_ip : Bool)
      (k : String),
      k ∉ dkeys (async_get_wl wl) →
      k ∉ dkeys (async_get_arp arp) →
      (∀ r ∈ neigh, (∃ m, r.mac = some m ∧ k = pyUpper m) →
        ∀ s, r.status = some s → ¬ pyUpper s = "REACHABLE") →
      k ∉ dkeys (async_get_connected_devices wl arp neigh leases mode
        require_ip)) := by
  refine ⟨dkeys_neigh_spec, ?_⟩
  intro wl arp neigh leases mode rip k hwl harp hstat hk
  rcases mem_dkeys_afterNeigh (mem_dkeys_connected hk) with h | h | h
  · exact hwl h
  · exact harp h
  · rcases dkeys_neigh_spec neigh _ k h with ⟨r, hr, ⟨s, hs, hre⟩, m, hm, hkm⟩
    exact hstat r hr ⟨m, hm, hkm⟩ s hs hre

/-- Witness for C7: a STALE-only MAC is absent from the reconciled table. -/
theorem neigh_only_reachable_contributes_witness :
    "AA:BB:CC:DD:EE:FF" ∉
      dkeys (async_get_connected_devices [] []
        [⟨some "10.0.0.1", some "aa:bb:cc:dd:ee:ff", some "STALE"⟩]
        [⟨"aa:bb:cc:dd:ee:ff", "10.0.0.1", "laptop"⟩] "router" false) := by
  apply neigh_only_reachable_contributes.2
  · decide
  · decide
  · intro r hr _ s hs
    rcases List.mem_singleton.mp hr with rfl
    cases hs
    decide

/-- C4 counterexample: raw output whose MAC uses `-` separators is
accepted by the patterns, but its key in the final table keeps the dashes
after upper-casing, so the key is not in canonical colon form. -/
theorem mac_key_keeps_dash_separator :
    isLowerMacTok "aa-bb-cc-dd-ee-ff" = true ∧
    dkeys (async_get_connected_devices []
        [⟨"192.168.1.2", some "aa-bb-cc-dd-ee-ff"⟩] [] [] "router" false) =
      ["AA-BB-CC-DD-EE-FF"] ∧
    isCanonicalMac "AA-BB-CC-DD-EE-FF" = false :=
  ⟨by decide, by decide, by decide⟩

/-- C4 as amended: whenever every record's raw MAC matches its pattern's
mac group, every key of the final table consists of uppercase hex pairs
joined by `:` or `-` — `.upper()` normalizes case but preserves the raw
separator style. -/
theorem mac_keys_uppercase_separator_preserved :
    ∀ (wl : List WlRecord) (arp : List ArpRecord) (neigh : List NeighRecord)
      (leases : List LeaseRecord) (mode : String) (require_ip : Bool),
      (∀ r ∈ wl, isUpperMacTok r.mac = true) →
      (∀ r ∈ arp, ∀ m, r.mac = some m → isLowerMacTok m = true) →
      (∀ r ∈ neigh, ∀ m, r.mac = some m → isLowerMacTok m = true) →
      ∀ k ∈ dkeys (async_get_connected_devices wl arp neigh leases mode
        require_ip), isUpperAnySepMac k = true := by
  intro wl arp neigh leases mode rip hwl harp hneigh k hk
  rcases mem_dkeys_afterNeigh (mem_dkeys_connected hk) with h | h | h
  · rcases dkeys_wl_spec wl k h with ⟨r, hr, rfl⟩
    exact isUpperAnySepMac_pyUpper_of_upper (hwl r hr)
  · rcases dkeys_arp_spec arp k h with ⟨r, hr, m, hm, rfl⟩
    exact isUpperAnySepMac_pyUpper_of_lower (harp r hr m hm)
  · rcases dkeys_neigh_spec neigh _ k h with ⟨r, hr, _, m, hm, rfl⟩
    exact isUpperAnySepMac_pyUpper_of_lower (hneigh r hr m hm)

/-- Witness for the amended C4 at the dash-separated counterexample
input. -/
theorem mac_keys_uppercase_separator_preserved_witness :
    isUpperAnySepMac "AA-BB-CC-DD-EE-FF" = true := by
  apply mac_keys_uppercase_separator_preserved []
    [⟨"192.168.1.2", some "aa-bb-cc-dd-ee-ff"⟩] [] [] "router" false
  · intro r hr
    exact absurd hr (List.not_mem_nil r)
  · intro r hr m hm
    rcases List.mem_singleton.mp hr with rfl
    cases hm
    decide
  · intro r hr
    exact absurd hr (List.not_mem_nil r)
  · decide

/-- C3: `async_get_neigh` at a REACHABLE record carrying a MAC but no IP,
with that MAC already known with IP `192.168.1.2`: the resulting entry's
IP is `none` — cleared, not preserved — because `device.get('ip', old_ip)`
never falls back to `old_ip` (`groupdict()` always contains the key). -/
theorem neigh_missing_ip_cleared :
    async_get_neigh [⟨none, some "aa:bb:cc:dd:ee:ff", some "REACHABLE"⟩]
        [("AA:BB:CC:DD:EE:FF",
          ⟨"AA:BB:CC:DD:EE:FF", some "192.168.1.2", none⟩)] =
      [("AA:BB:CC:DD:EE:FF", ⟨"AA:BB:CC:DD:EE:FF", none, none⟩)] := by decide

/-- C5: on a first channel-open failure the code re-initializes the
session once, but then returns the retry's coroutine object without
awaiting it: the caller receives the coroutine — never a line list, and
never the empty list — even when a retried attempt would have
succeeded. -/
theorem ssh_channel_failure_yields_unawaited_coroutine :
    ssh_async_run_command (fun _ => RunAttempt.channelOpenError) false =
      (AwaitedValue.unawaitedCoroutine, 1) ∧
    ssh_async_run_command
        (fun b => if b then RunAttempt.ok "line1" else
          RunAttempt.channelOpenError) false =
      (AwaitedValue.unawaitedCoroutine, 1) :=
  ⟨rfl, rfl⟩

/-- C1: `async_get_current_transfer_rates` returns an absent rate on the
warm-up call, storing the current totals as the snapshot; on every
subsequent call with positive elapsed time it returns, per direction,
exactly the spec's rate — the ceiling of delta over elapsed seconds,
clamped to zero on a negative delta; and the spec's two worked examples
evaluate as claimed: totals (1000,2000) at t0, (2000,2500) at t0+2s give
(500, 250), and totals (500,2600) at t0+3s give (0, 100). -/
theorem transfer_rates_warmup_and_ceiling :
    (∀ (st : WrtState) (now : ℚ) (data : List Nat) (d0 d1 : Nat),
      (st.rx_latest = none ∨ st.tx_latest = none) →
      data.head? = some d0 → data.get? 1 = some d1 →
      transferRatesOnData st now data =
        some ({ st with rx_latest := some (d0 : Int),
                        tx_latest := some (d1 : Int),
                        latest_transfer_check := some now }, none)) ∧
    (∀ (st : WrtState) (now : ℚ) (data : List Nat) (d0 d1 : Nat)
      (r0 t0 : Int) (tc : ℚ),
      st.rx_latest = some r0 → st.tx_latest = some t0 →
      st.latest_transfer_check = some tc →
      data.head? = some d0 → data.get? 1 = some d1 →
      0 < now - tc →
      transferRatesOnData st now data =
        some ({ st with rx_latest := some (d0 : Int),
                        tx_latest := some (d1 : Int),
                        latest_transfer_check := some now },
          some (specRate ((d0 : Int) - r0) (now - tc),
                specRate ((d1 : Int) - t0) (now - tc)))) ∧
    transferRatesOnData ⟨none, some 1000, some 2000, some 0, 5⟩ 2
        [2000, 2500] =
      some (⟨none, some 2000, some 2500, some 2, 5⟩, some (500, 250)) ∧
    transferRatesOnData ⟨none, some 2000, some 2500, some 2, 5⟩ 3
        [500, 2600] =
      some (⟨none, some 500, some 2600, some 3, 5⟩, some (0, 100)) := by
  refine ⟨?_, ?_, by simp only [transferRatesOnData]; norm_num,
    by simp only [transferRatesOnData]; norm_num⟩
  · rintro ⟨cache, rxl, txl, ltc, ct⟩ now data d0 d1 h h0 h1
    simp only at h
    unfold transferRatesOnData
    rcases h with rfl | rfl
    · cases txl
      all_goals dsimp only; rw [h0, h1]
    · cases rxl
      all_goals dsimp only; rw [h0, h1]
  · rintro ⟨cache, rxl, txl, ltc, ct⟩ now data d0 d1 r0 t0 tc hr ht htc h0 h1
      hdt
    simp only at hr ht htc
    subst hr ht htc
    rw [transferRatesOnData_subsequent cache r0 t0 tc ct now data d0 d1 h0 h1
      (by rintro ⟨hz, -⟩; rw [hz] at hdt; exact lt_irrefl 0 hdt)]
    rw [rate_eq_specRate, rate_eq_specRate]

/-- Witness for C1 at a warm-up call and at a subsequent call with one
positive and one negative delta. -/
theorem transfer_rates_warmup_and_ceiling_witness :
    transferRatesOnData ⟨none, none, none, none, 5⟩ 10 [100, 200] =
      some (⟨none, some ((100 : Nat) : Int), some ((200 : Nat) : Int),
        some 10, 5⟩, none) ∧
    transferRatesOnData ⟨none, some 40, some 300, some 9, 5⟩ 10 [100, 200] =
      some (⟨none, some ((100 : Nat) : Int), some ((200 : Nat) : Int),
        some 10, 5⟩,
        some (specRate (((100 : Nat) : Int) - 40) (10 - 9),
              specRate (((200 : Nat) : Int) - 300) (10 - 9))) :=
  ⟨transfer_rates_warmup_and_ceiling.1 ⟨none, none, none, none, 5⟩ 10
      [100, 200] 100 200 (Or.inl rfl) rfl rfl,
   transfer_rates_warmup_and_ceiling.2.1 ⟨none, some 40, some 300, some 9, 5⟩
      10 [100, 200] 100 200 40 300 9 rfl rfl rfl rfl rfl (by norm_num)⟩

/-- C6: within the cache window a cached-totals call returns the cached
values with the state (hence the timestamp) unchanged, for every possible
command output; after the window, or with caching off, the command output
is parsed again and both the cached values and the timestamp are
refreshed. -/
theorem packets_total_cache_window :
    (∀ (st : WrtState) (now : ℚ) (lines : List String) (c : List Nat)
      (tc : ℚ),
      st.cache = some (c, tc) → now - tc < st.cache_time →
      async_get_packets_total st now true lines = some (c, st)) ∧
    (∀ (st : WrtState) (now : ℚ) (lines : List String) (line0 : String)
      (c : List Nat) (tc : ℚ),
      st.cache = some (c, tc) → ¬ now - tc < st.cache_time →
      lines.head? = some line0 →
      async_get_packets_total st now true lines =
        some ((findNums line0).map digitsToNat,
          { st with cache := some ((findNums line0).map digitsToNat, now) })) ∧
    (∀ (st : WrtState) (now : ℚ) (lines : List String) (line0 : String),
      lines.head? = some line0 →
      async_get_packets_total st now false lines =
        some ((findNums line0).map digitsToNat,
          { st with
            cache := some ((findNums line0).map digitsToNat, now) })) := by
  refine ⟨?_, ?_, ?_⟩
  · intro st now lines c tc hc hlt
    unfold async_get_packets_total
    rw [hc]
    dsimp only
    rw [if_pos ⟨rfl, hlt⟩]
  · intro st now lines line0 c tc hc hge h0
    unfold async_get_packets_total
    rw [hc]
    dsimp only
    rw [if_neg (by rintro ⟨-, hlt⟩; exact hge hlt), h0]
  · intro st now lines line0 h0
    exact packets_total_fresh (Or.inl rfl) h0

/-- Witness for C6: a hit inside the window, a refresh after it, and a
refresh with caching off. -/
theorem packets_total_cache_window_witness :
    async_get_packets_total ⟨some ([7, 8], 0), none, none, none, 5⟩ 3 true
        ["RX bytes:1234 TX bytes:5678"] =
      some ([7, 8], ⟨some ([7, 8], 0), none, none, none, 5⟩) ∧
    async_get_packets_total ⟨some ([7, 8], 0), none, none, none, 5⟩ 6 true
        ["RX bytes:1234 TX bytes:5678"] =
      some ((findNums "RX bytes:1234 TX bytes:5678").map digitsToNat,
        ⟨some ((findNums "RX bytes:1234 TX bytes:5678").map digitsToNat, 6),
          none, none, none, 5⟩) ∧
    async_get_packets_total ⟨some ([7, 8], 0), none, none, none, 5⟩ 1 false
        ["RX bytes:1234 TX bytes:5678"] =
      some ((findNums "RX bytes:1234 TX bytes:5678").map digitsToNat,
        ⟨some ((findNums "RX bytes:1234 TX bytes:5678").map digitsToNat, 1),
          none, none, none, 5⟩) :=
  ⟨packets_total_cache_window.1 ⟨some ([7, 8], 0), none, none, none, 5⟩ 3
      ["RX bytes:1234 TX bytes:5678"] [7, 8] 0 rfl (by norm_num),
   packets_total_cache_window.2.1 ⟨some ([7, 8], 0), none, none, none, 5⟩ 6
      ["RX bytes:1234 TX bytes:5678"] "RX bytes:1234 TX bytes:5678" [7, 8] 0
      rfl (by norm_num) rfl,
   packets_total_cache_window.2.2 ⟨some ([7, 8], 0), none, none, none, 5⟩ 1
      ["RX bytes:1234 TX bytes:5678"] "RX bytes:1234 TX bytes:5678" rfl⟩

/-- C8: the counter command's output is reduced to its maximal 4-plus
digit tokens, and whenever the command is actually issued, the received
total is the first token and the transmitted total the second. -/
theorem rx_tx_are_first_two_tokens :
    (∀ (line0 : String), ∀ t ∈ findNums line0,
      4 ≤ t.length ∧ t.data.all Char.isDigit = true) ∧
    (∀ (st : WrtState) (now : ℚ) (use_cache : Bool) (lines : List String)
      (line0 : String) (t0 t1 : Nat) (rest : List Nat),
      (use_cache = false ∨ st.cache = none) →
      lines.head? = some line0 →
      (findNums line0).map digitsToNat = t0 :: t1 :: rest →
      async_get_rx st now use_cache lines =
        some (t0, { st with cache := some (t0 :: t1 :: rest, now) }) ∧
      async_get_tx st now use_cache lines =
        some (t1, { st with cache := some (t0 :: t1 :: rest, now) })) := by
  constructor
  · intro line0 t ht
    unfold findNums at ht
    rcases List.mem_map.mp ht with ⟨r, hr, rfl⟩
    have hmem := (List.mem_filter.mp hr).1
    have hlen : 4 ≤ r.length := of_decide_eq_true (List.mem_filter.mp hr).2
    exact ⟨hlen, digitRuns_all_digits line0.data r hmem⟩
  · intro st now use_cache lines line0 t0 t1 rest h h0 htoks
    have hfresh := @packets_total_fresh st now use_cache lines line0 h h0
    rw [htoks] at hfresh
    constructor
    · unfold async_get_rx
      rw [hfresh]
      rfl
    · unfold async_get_tx
      rw [hfresh]
      rfl

/-- Witness for C8 on a concrete counter line. -/
theorem rx_tx_are_first_two_tokens_witness :
    (4 ≤ ("1234" : String).length ∧
      ("1234" : String).data.all Char.isDigit = true) ∧
    async_get_rx ⟨none, none, none, none, 5⟩ 0 true
        ["RX bytes:1234 (1.2 KiB) TX bytes:56789"] =
      some (1234, ⟨some ([1234, 56789], 0), none, none, none, 5⟩) ∧
    async_get_tx ⟨none, none, none, none, 5⟩ 0 true
        ["RX bytes:1234 (1.2 KiB) TX bytes:56789"] =
      some (56789, ⟨some ([1234, 56789], 0), none, none, none, 5⟩) := by
  refine ⟨rx_tx_are_first_two_tokens.1 "1234" "1234" (by decide), ?_, ?_⟩
  · exact (rx_tx_are_first_two_tokens.2 ⟨none, none, none, none, 5⟩ 0 true
      ["RX bytes:1234 (1.2 KiB) TX bytes:56789"]
      "RX bytes:1234 (1.2 KiB) TX bytes:56789" 1234 56789 []
      (Or.inr rfl) rfl (by decide)).1
  · exact (rx_tx_are_first_two_tokens.2 ⟨none, none, none, none, 5⟩ 0 true
      ["RX bytes:1234 (1.2 KiB) TX bytes:56789"]
      "RX bytes:1234 (1.2 KiB) TX bytes:56789" 1234 56789 []
      (Or.inr rfl) rfl (by decide)).2

/-- C9: two rate calls after warm-up, both with caching on and inside the
same cache window, make the second call diff the identical cached totals
against themselves: it returns rates (0, 0) no matter what the router
reports on either call. -/
theorem cached_rates_are_zero_within_window :
    ∀ (c0 c1 : Nat) (rest : List Nat) (tc : ℚ) (r0 t0 : Int)
      (p0 ct t1 t2 : ℚ) (lines1 lines2 : List String) (st1 : WrtState)
      (rate1 : Option (Int × Int)),
      t1 - tc < ct → t2 - tc < ct →
      async_get_current_transfer_rates
          ⟨some (c0 :: c1 :: rest, tc), some r0, some t0, some p0, ct⟩ t1
          true lines1 = some (st1, rate1) →
      async_get_current_transfer_rates st1 t2 true lines2 =
        some (⟨some (c0 :: c1 :: rest, tc), some (c0 : Int), some (c1 : Int),
          some t2, ct⟩, some (0, 0)) := by
  intro c0 c1 rest tc r0 t0 p0 ct t1 t2 lines1 lines2 st1 rate1 h1 h2 hcall
  have hhit1 : async_get_packets_total
      ⟨some (c0 :: c1 :: rest, tc), some r0, some t0, some p0, ct⟩ t1 true
      lines1 = some (c0 :: c1 :: rest,
        ⟨some (c0 :: c1 :: rest, tc), some r0, some t0, some p0, ct⟩) := by
    unfold async_get_packets_total
    dsimp only
    rw [if_pos ⟨rfl, h1⟩]
  unfold async_get_current_transfer_rates at hcall
  rw [hhit1] at hcall
  dsimp only at hcall
  by_cases hg : t1 - p0 = 0 ∧
      ((c0 : Int) - r0 > 0 ∨ (c1 : Int) - t0 > 0)
  · rw [transferRatesOnData_guard_crash (some (c0 :: c1 :: rest, tc)) r0 t0
      p0 ct t1 (c0 :: c1 :: rest) c0 c1 rfl rfl hg] at hcall
    exact Option.noConfusion hcall
  · rw [transferRatesOnData_subsequent (some (c0 :: c1 :: rest, tc)) r0 t0
      p0 ct t1 (c0 :: c1 :: rest) c0 c1 rfl rfl hg] at hcall
    injection hcall with hpair
    rw [Prod.ext_iff] at hpair
    obtain ⟨hst, -⟩ := hpair
    dsimp only at hst
    subst hst
    have hhit2 : async_get_packets_total
        ⟨some (c0 :: c1 :: rest, tc), some (c0 : Int), some (c1 : Int),
          some t1, ct⟩ t2 true lines2 =
        some (c0 :: c1 :: rest,
          ⟨some (c0 :: c1 :: rest, tc), some (c0 : Int), some (c1 : Int),
            some t1, ct⟩) := by
      unfold async_get_packets_total
      dsimp only
      rw [if_pos ⟨rfl, h2⟩]
    unfold async_get_current_transfer_rates
    rw [hhit2]
    dsimp only
    rw [transferRatesOnData_subsequent (some (c0 :: c1 :: rest, tc))
      (c0 : Int) (c1 : Int) t1 ct t2 (c0 :: c1 :: rest) c0 c1 rfl rfl
      (by simp)]
    simp

/-- Witness for C9 at concrete numbers: warmed state, cached totals
[100, 200], both calls inside the five-second window. -/
theorem cached_rates_are_zero_within_window_witness :
    async_get_current_transfer_rates
        ⟨some ([100, 200], 0), some ((100 : Nat) : Int),
          some ((200 : Nat) : Int), some 2, 5⟩ 3 true [] =
      some (⟨some ([100, 200], 0), some ((100 : Nat) : Int),
        some ((200 : Nat) : Int), some 3, 5⟩, some (0, 0)) :=
  cached_rates_are_zero_within_window 100 200 [] 0 40 150 0 5 2 3 [] []
    ⟨some ([100, 200], 0), some ((100 : Nat) : Int),
      some ((200 : Nat) : Int), some 2, 5⟩ (some (30, 25))
    (by norm_num) (by norm_num)
    (by simp only [async_get_current_transfer_rates, async_get_packets_total,
          transferRatesOnData]
        norm_num)

end Aioasuswrt
